import Mathlib

/-!
Shallow embedding of the `aqua-verifier-rs-types` crate (canonical identifier
codec, address derivation, Merkle witness model) and proofs about it.

Rust strings are embedded as lists of their UTF-8 bytes (`List Nat`, each
entry a byte value); fixed-size byte arrays are embedded as `List Nat` of the
corresponding length.  Machine-integer overflow is made explicit with `% 2 ^ w`
where it matters.
-/

namespace Aqua

/-- Bytes of an ASCII Lean string literal, used to write concrete test inputs
readably.  For ASCII characters the UTF-8 byte equals the code point. -/
def strBytes (s : String) : List Nat :=
  s.data.map Char.toNat

/-! ## The `hex` crate primitives used by the repository

`hex::decode_to_slice` checks that the input length is exactly twice the
output buffer length and decodes byte pairs; its digit table accepts the
characters 0-9, a-f and also A-F (uppercase is decoded, not rejected).
`hex::encode_to_slice` / `hex::encode` emit lowercase digits from the table
"0123456789abcdef". -/

/-- Value of one hex digit byte, as the `hex` crate decodes it:
0-9 (bytes 48-57), a-f (97-102), and A-F (65-70) are all accepted. -/
def hexVal (b : Nat) : Option Nat :=
  if 48 ≤ b ∧ b ≤ 57 then some (b - 48)
  else if 97 ≤ b ∧ b ≤ 102 then some (b - 97 + 10)
  else if 65 ≤ b ∧ b ≤ 70 then some (b - 65 + 10)
  else none

/-- Decode a list of hex-digit bytes two at a time into bytes. -/
def hexDecodePairs : List Nat → Option (List Nat)
  | [] => some []
  | c1 :: c2 :: rest => do
      let hi ← hexVal c1
      let lo ← hexVal c2
      let tail ← hexDecodePairs rest
      some ((16 * hi + lo) :: tail)
  | [_] => none

/-- Embedding of `hex::decode_to_slice` with an output buffer of `SIZE`
bytes: fails unless the input is exactly `SIZE * 2` hex digits. -/
def hexDecodeToSlice (SIZE : Nat) (s : List Nat) : Option (List Nat) :=
  if s.length = SIZE * 2 then hexDecodePairs s else none

/-- The lowercase digit table of the `hex` crate, as bytes. -/
def HEX_CHARS_LOWER : List Nat :=
  strBytes "0123456789abcdef"

/-- Lowercase hex digit byte for a value below 16 (table lookup). -/
def hexDigitLower (n : Nat) : Nat :=
  HEX_CHARS_LOWER.getD n 48

/-- Lowercase hex encoding of one byte (high digit then low digit),
as `hex::encode_to_slice` emits it. -/
def hexEncodeByte (b : Nat) : List Nat :=
  [hexDigitLower (b / 16), hexDigitLower (b % 16)]

/-- Lowercase hex encoding of a byte list. -/
def hexEncode (bs : List Nat) : List Nat :=
  (bs.map hexEncodeByte).flatten

/-! ## `str` methods used by the parsers -/

/-- Embedding of `str::is_ascii`: every byte is below 128. -/
def isAsciiStr (s : List Nat) : Bool :=
  s.all (fun b => b < 128)

/-- Embedding of `str::to_ascii_lowercase`: bytes 65-90 (A-Z) are shifted
to 97-122 (a-z), all other bytes are kept. -/
def toAsciiLowercase (s : List Nat) : List Nat :=
  s.map (fun b => if 65 ≤ b ∧ b ≤ 90 then b + 32 else b)

/-- Embedding of `str::starts_with("0x")`: the byte of the character 0 is 48
and the byte of x is 120. -/
def startsWith0x (s : List Nat) : Bool :=
  match s with
  | 48 :: 120 :: _ => true
  | _ => false

/-- Embedding of `str::strip_prefix("0x")`. -/
def strip0x (s : List Nat) : Option (List Nat) :=
  match s with
  | 48 :: 120 :: rest => some rest
  | _ => none

/-- Largest `usize` value (64-bit targets). -/
def USIZE_MAX : Nat := 2 ^ 64 - 1

/-- Embedding of `from_hex` in `src/models/stack_str.rs`:

```
if !s.as_bytes().len() == SIZE * 2 || !s.is_ascii() { return None; }
let mut data = [0u8; SIZE];
hex::decode_to_slice(s, &mut data).ok()?;
Some(data)
```

`!` binds tighter than `==` in Rust, so the first guard applies bitwise NOT
to the `usize` length and compares `USIZE_MAX - len` against `SIZE * 2`; it
is not a length check.  The length is still enforced by
`hex::decode_to_slice`.  The lengths of an all-ASCII string in bytes and in
characters agree, and the guard rejects non-ASCII input before decoding, so
the byte length is the list length of the embedding. -/
def from_hex (SIZE : Nat) (s : List Nat) : Option (List Nat) :=
  if USIZE_MAX - s.length = SIZE * 2 ∨ ¬ isAsciiStr s = true then none
  else hexDecodeToSlice SIZE s

/-! ## `Hash` (src/models/hash.rs): a 64-byte SHA3-512 digest -/

/-- Embedding of `Hash`: wraps the 64 digest bytes
(`crate::crypt::Hash = sha3::digest::Output<Sha3_512>`). -/
structure Hash where
  bytes : List Nat
deriving DecidableEq

/-- A value actually constructible as a `Hash` in the Rust code: 64 bytes. -/
def Hash.Valid (h : Hash) : Prop :=
  h.bytes.length = 64 ∧ ∀ b ∈ h.bytes, b < 256

instance (h : Hash) : Decidable h.Valid := by
  unfold Hash.Valid
  exact inferInstance

/-- Embedding of `Hash::to_stackstr`: `hex::encode_to_slice` of the 64 bytes
into a 128-byte buffer, i.e. 128 lowercase hex digits, no prefix. -/
def Hash.to_stackstr (h : Hash) : List Nat :=
  hexEncode h.bytes

/-- Embedding of the `Display` impl for `Hash`: an independent
`hex::encode_to_slice` of the same 64 bytes into a `[u8; 64 * 2]` buffer. -/
def Hash.display (h : Hash) : List Nat :=
  hexEncode h.bytes

/-- Embedding of the `serde::Serialize` impl for `Hash`: the string content
written to JSON is `hex::encode(&self.0[..])`. -/
def Hash.serializeStr (h : Hash) : List Nat :=
  hexEncode h.bytes

/-- Embedding of `FromStr` for `Hash`: `Ok(Hash(from_hex(s).ok_or(())?))`.
The error type in the source is the unit type `()`. -/
def Hash.from_str (s : List Nat) : Except Unit Hash :=
  match from_hex 64 s with
  | some bs => .ok ⟨bs⟩
  | none => .error ()

/-- Embedding of the `serde::Deserialize` impl for `Hash`: deserialize the
JSON string, delegate to `FromStr`, and map any error to the custom serde
message. -/
def Hash.deserialize (s : List Nat) : Except String Hash :=
  (Hash.from_str s).mapError (fun _ => "Invalid sha3_512 hash")

/-! ## `TxHash` (src/models/tx_hash.rs): a 32-byte transaction hash -/

/-- Embedding of `TxHash`: wraps the 32 bytes. -/
structure TxHash where
  bytes : List Nat
deriving DecidableEq

/-- A value actually constructible as a `TxHash` in the Rust code. -/
def TxHash.Valid (t : TxHash) : Prop :=
  t.bytes.length = 32 ∧ ∀ b ∈ t.bytes, b < 256

instance (t : TxHash) : Decidable t.Valid := by
  unfold TxHash.Valid
  exact inferInstance

/-- Embedding of `TxHash::to_stackstr`: the byte 48 (character 0) and the
byte 120 (character x) followed by 64 lowercase hex digits. -/
def TxHash.to_stackstr (t : TxHash) : List Nat :=
  48 :: 120 :: hexEncode t.bytes

/-- Embedding of the `serde::Serialize` impl for `TxHash`: the written
string is "0x" concatenated with `hex::encode(&self.0[..])`. -/
def TxHash.serializeStr (t : TxHash) : List Nat :=
  48 :: 120 :: hexEncode t.bytes

/-- Error values of `FromStr` for `TxHash`.  The source error type is
`String`; the three messages are represented by three constructors:
`noPfx` for "HASH HAS NO 0x PREFIX", `badLen` for
"LENGTH NOT EQUAL TO 64", and `decodeFail` for "UNABLE TO DECODE". -/
inductive TxHashErr
  | noPfx
  | badLen
  | decodeFail
deriving DecidableEq

/-- Embedding of `FromStr` for `TxHash` (the relaxed parser in the source):
if the input does not start with "0x" the prefix is prepended, then the
prefix is stripped again, the remaining length must be exactly 64, and the
payload is decoded with `hex::decode_to_slice` into `[u8; 32]`. -/
def TxHash.from_str (s : List Nat) : Except TxHashErr TxHash :=
  let s := if startsWith0x s then s else 48 :: 120 :: s
  match strip0x s with
  | none => .error .noPfx
  | some t =>
    if t.length ≠ 64 then .error .badLen
    else
      match hexDecodeToSlice 32 t with
      | some bs => .ok ⟨bs⟩
      | none => .error .decodeFail

/-- Embedding of the `serde::Deserialize` impl for `TxHash`: delegates to
`FromStr` and maps any error to the custom serde message. -/
def TxHash.deserialize (s : List Nat) : Except String TxHash :=
  (TxHash.from_str s).mapError (fun _ => "Invalid sha3_512 hash")

/-! ## The `libsecp256k1` crate primitives used by the repository

Only the behavior the repository relies on is embedded: 32-byte big-endian
scalar (de)serialization with overflow checks, recovery-id handling, and
uncompressed public-key parsing with the curve equation check. -/

/-- Big-endian byte serialization of a natural number into `n` bytes
(the low `8 * n` bits). -/
def natToBytesBE : Nat → Nat → List Nat
  | 0, _ => []
  | n + 1, x => natToBytesBE n (x / 256) ++ [x % 256]

/-- Big-endian byte deserialization. -/
def natFromBytesBE (bs : List Nat) : Nat :=
  bs.foldl (fun acc b => acc * 256 + b) 0

/-- The secp256k1 field prime. -/
def SECP_P : Nat := 2 ^ 256 - 2 ^ 32 - 977

/-- The secp256k1 group order, the overflow bound of scalars. -/
def SECP_N : Nat :=
  115792089237316195423570985008687907852837564279074904382605163141518161494337

/-- The `libsecp256k1::Error` variants the embedded operations return. -/
inductive SecpError
  | invalidSignature
  | invalidRecoveryId
  | invalidPublicKey
deriving DecidableEq

/-- Embedding of `libsecp256k1::Signature`: the scalar pair (r, s). -/
structure SecpSignature where
  r : Nat
  s : Nat
deriving DecidableEq

/-- A scalar pair accepted by `parse_standard`, hence constructible. -/
def SecpSignature.Valid (sig : SecpSignature) : Prop :=
  sig.r < SECP_N ∧ sig.s < SECP_N

instance (sig : SecpSignature) : Decidable sig.Valid := by
  unfold SecpSignature.Valid
  exact inferInstance

/-- Embedding of `libsecp256k1::Signature::serialize`: r then s, each as 32
big-endian bytes. -/
def SecpSignature.serialize (sig : SecpSignature) : List Nat :=
  natToBytesBE 32 sig.r ++ natToBytesBE 32 sig.s

/-- Embedding of `libsecp256k1::Signature::parse_standard` on a 64-byte
input: reads r and s and rejects scalar overflow (values at or above the
group order) with `Error::InvalidSignature`. -/
def SecpSignature.parse_standard (bs : List Nat) : Except SecpError SecpSignature :=
  if bs.length = 64 then
    let r := natFromBytesBE (bs.take 32)
    let s := natFromBytesBE (bs.drop 32)
    if r < SECP_N ∧ s < SECP_N then .ok ⟨r, s⟩ else .error .invalidSignature
  else .error .invalidSignature

/-- Embedding of `libsecp256k1::RecoveryId`: the raw id byte. -/
structure RecoveryId where
  b : Nat
deriving DecidableEq

/-- A recovery id accepted by `RecoveryId::parse`, hence constructible. -/
def RecoveryId.Valid (r : RecoveryId) : Prop :=
  r.b < 4

instance (r : RecoveryId) : Decidable r.Valid := by
  unfold RecoveryId.Valid
  exact inferInstance

/-- Embedding of `RecoveryId::parse`: accepts 0-3. -/
def RecoveryId.parse (p : Nat) : Except SecpError RecoveryId :=
  if p < 4 then .ok ⟨p⟩ else .error .invalidRecoveryId

/-- Embedding of `RecoveryId::parse_rpc`: accepts 27-30 and subtracts 27. -/
def RecoveryId.parse_rpc (p : Nat) : Except SecpError RecoveryId :=
  if 27 ≤ p ∧ p ≤ 30 then RecoveryId.parse (p - 27) else .error .invalidRecoveryId

/-- Embedding of `RecoveryId::serialize`: the raw id. -/
def RecoveryId.serialize (r : RecoveryId) : Nat :=
  r.b

/-- Embedding of an affine secp256k1 point as `libsecp256k1::PublicKey`
stores it. -/
structure SecpPublicKey where
  x : Nat
  y : Nat
deriving DecidableEq

/-- A point accepted by `PublicKey::parse`, hence constructible: field
coordinates on the curve y^2 = x^3 + 7. -/
def SecpPublicKey.Valid (k : SecpPublicKey) : Prop :=
  k.x < SECP_P ∧ k.y < SECP_P ∧ (k.y * k.y) % SECP_P = (k.x ^ 3 + 7) % SECP_P

instance (k : SecpPublicKey) : Decidable k.Valid := by
  unfold SecpPublicKey.Valid
  exact inferInstance

/-- Embedding of `libsecp256k1::PublicKey::serialize`: the uncompressed
65-byte form, tag byte 4 then x then y as 32 big-endian bytes each. -/
def SecpPublicKey.serialize (k : SecpPublicKey) : List Nat :=
  4 :: (natToBytesBE 32 k.x ++ natToBytesBE 32 k.y)

/-- Embedding of `libsecp256k1::PublicKey::parse` on a 65-byte input: the
tag must be 4 (full), 6 or 7 (hybrid, with matching y parity), the
coordinates must be field elements, and the point must satisfy the curve
equation; anything else is `Error::InvalidPublicKey`. -/
def SecpPublicKey.parse (bs : List Nat) : Except SecpError SecpPublicKey :=
  if bs.length = 65 ∧ (bs.getD 0 0 = 4 ∨ bs.getD 0 0 = 6 ∨ bs.getD 0 0 = 7) then
    let x := natFromBytesBE ((bs.drop 1).take 32)
    let y := natFromBytesBE (bs.drop 33)
    if x < SECP_P ∧ y < SECP_P ∧ (y * y) % SECP_P = (x ^ 3 + 7) % SECP_P
        ∧ (bs.getD 0 0 = 6 → y % 2 = 0) ∧ (bs.getD 0 0 = 7 → y % 2 = 1) then
      .ok ⟨x, y⟩
    else .error .invalidPublicKey
  else .error .invalidPublicKey

/-! ## `Signature` (src/models/signature.rs) -/

/-- Embedding of the `Signature` struct: recovery id plus (r, s). -/
structure Signature where
  recovery_id : RecoveryId
  signature : SecpSignature
deriving DecidableEq

/-- Embedding of `From<Signature> for [u8; 65]`: the `repr(C)` struct
`EncSignature { signature: [u8; 64], recovery_id: u8 }` is a 64-byte
serialized signature followed by one recovery byte, and the recovery byte
is offset by the magic number 27.  The transmute lays the fields out in
declaration order. -/
def Signature.to65 (v : Signature) : List Nat :=
  v.signature.serialize ++ [RecoveryId.serialize v.recovery_id + 27]

/-- Embedding of `TryFrom<[u8; 65]> for Signature`: the first 64 bytes go
through `parse_standard`, the last byte through `parse_rpc`, in that order
(the struct literal evaluates the `signature` field first). -/
def Signature.tryFrom65 (bs : List Nat) : Except SecpError Signature := do
  let sig ← SecpSignature.parse_standard (bs.take 64)
  let rid ← RecoveryId.parse_rpc (bs.getD 64 0)
  .ok ⟨rid, sig⟩

/-- Embedding of `Signature::to_stackstr`: "0x" then the 65 bytes in
lowercase hex (132 bytes total). -/
def Signature.to_stackstr (v : Signature) : List Nat :=
  48 :: 120 :: hexEncode v.to65

/-- Embedding of the `serde::Serialize` impl for `Signature`: an
independent buffer fill with "0x" and `hex::encode_to_slice` of the same
65-byte form. -/
def Signature.serializeStr (v : Signature) : List Nat :=
  48 :: 120 :: hexEncode v.to65

/-- Embedding of the `ReadError` enum of src/models/signature.rs.  The
constructor `decryptFail` is the `DecryptFail(libsecp256k1::Error)`
variant; `notAsciiLower`, `noPfx` and `notHex` are the `NotAsciiLower`,
`NoPrefix` and `NotHex` variants. -/
inductive ReadError
  | notAsciiLower
  | noPfx
  | notHex
  | decryptFail (e : SecpError)
deriving DecidableEq

/-- Embedding of `FromStr` for `Signature`: reject any input changed by
ASCII lowercasing, strip the required "0x", decode with `from_hex::<65>`,
and convert the 65 bytes with `TryFrom`. -/
def Signature.from_str (s : List Nat) : Except ReadError Signature :=
  if toAsciiLowercase s ≠ s then .error .notAsciiLower
  else
    match strip0x s with
    | none => .error .noPfx
    | some t =>
      match from_hex 65 t with
      | none => .error .notHex
      | some h => (Signature.tryFrom65 h).mapError .decryptFail

/-- Embedding of the `serde::Deserialize` impl for `Signature`: delegates
to `FromStr` and maps the error into the custom serde message built from
the `ReadError` display text. -/
def Signature.deserialize (s : List Nat) : Except String Signature :=
  (Signature.from_str s).mapError (fun _ => "Signature problem")

/-! ## `PublicKey` (src/models/public_key.rs) -/

/-- Embedding of the `PublicKey` wrapper. -/
structure PublicKey where
  key : SecpPublicKey
deriving DecidableEq

/-- Embedding of `PublicKey::to_stackstr`: "0x" then the uncompressed
65-byte serialization in lowercase hex. -/
def PublicKey.to_stackstr (p : PublicKey) : List Nat :=
  48 :: 120 :: hexEncode p.key.serialize

/-- Embedding of the `Display` impl for `PublicKey`: formats
`to_stackstr`. -/
def PublicKey.display (p : PublicKey) : List Nat :=
  48 :: 120 :: hexEncode p.key.serialize

/-- Embedding of the `serde::Serialize` impl for `PublicKey`: writes
`to_stackstr`. -/
def PublicKey.serializeStr (p : PublicKey) : List Nat :=
  48 :: 120 :: hexEncode p.key.serialize

/-- Embedding of `FromStr` for `PublicKey`: reject any input changed by
ASCII lowercasing, strip the required "0x", decode with `from_hex::<65>`,
and parse the 65 bytes as an uncompressed point.  The error type in the
source is the unit type `()`. -/
def PublicKey.from_str (s : List Nat) : Except Unit PublicKey :=
  if toAsciiLowercase s ≠ s then .error ()
  else
    match strip0x s with
    | none => .error ()
    | some t =>
      match from_hex 65 t with
      | none => .error ()
      | some h => (SecpPublicKey.parse h).map PublicKey.mk |>.mapError (fun _ => ())

/-- Embedding of the `serde::Deserialize` impl for `PublicKey`: delegates
to `FromStr` and maps any error to the custom serde message. -/
def PublicKey.deserialize (s : List Nat) : Except String PublicKey :=
  (PublicKey.from_str s).mapError
    (fun _ => "not a valid signature (or maybe not supported)")

/-! ## Keccak-f[1600] and the two digests the repository uses

`crate::crypt::Hasher` is `sha3::Sha3_512` (rate 72 bytes, domain padding
byte 6) and `crypt::Keccak256` is the legacy Keccak-256 (rate 136 bytes,
domain padding byte 1).  The state is 25 lanes of 64 bits, little-endian
within each lane, lane index x + 5 * y. -/

/-- Mask of one 64-bit lane. -/
def LANE_MASK : Nat := 2 ^ 64 - 1

/-- Left rotation of a 64-bit lane. -/
def rotl64 (x n : Nat) : Nat :=
  ((x <<< n) % 2 ^ 64) ||| (x >>> (64 - n))

/-- Bitwise complement of a 64-bit lane. -/
def not64 (x : Nat) : Nat :=
  x ^^^ LANE_MASK

/-- Lane of a state at coordinates (x, y), wrapping both mod 5. -/
def lane (st : List Nat) (x y : Nat) : Nat :=
  st.getD (x % 5 + 5 * (y % 5)) 0

/-- Theta step of Keccak-f. -/
def keccakTheta (st : List Nat) : List Nat :=
  let C := (List.range 5).map (fun x =>
    lane st x 0 ^^^ lane st x 1 ^^^ lane st x 2 ^^^ lane st x 3 ^^^ lane st x 4)
  let D := fun x => C.getD ((x + 4) % 5) 0 ^^^ rotl64 (C.getD ((x + 1) % 5) 0) 1
  (List.range 25).map (fun i => st.getD i 0 ^^^ D (i % 5))

/-- Rotation offsets r[x, y] of the rho step, stored column-major
(index 5 * x + y; the first five entries are column x = 0). -/
def RHO_OFFSETS : List Nat :=
  [0, 36, 3, 41, 18,
   1, 44, 10, 45, 2,
   62, 6, 43, 15, 61,
   28, 55, 25, 21, 56,
   27, 20, 39, 8, 14]

/-- Combined rho and pi steps: the new lane (X, Y) is the old lane
(X + 3Y mod 5, X) rotated by its offset. -/
def keccakRhoPi (st : List Nat) : List Nat :=
  (List.range 25).map (fun i =>
    let X := i % 5
    let Y := i / 5
    let sx := (X + 3 * Y) % 5
    let sy := X
    rotl64 (lane st sx sy) (RHO_OFFSETS.getD (5 * sx + sy) 0))

/-- Chi step of Keccak-f. -/
def keccakChi (st : List Nat) : List Nat :=
  (List.range 25).map (fun i =>
    let X := i % 5
    let Y := i / 5
    lane st X Y ^^^ (not64 (lane st (X + 1) Y) &&& lane st (X + 2) Y))

/-- Iota step: fold the round constant into lane (0, 0). -/
def keccakIota (rc : Nat) (st : List Nat) : List Nat :=
  match st with
  | [] => []
  | a :: rest => (a ^^^ rc) :: rest

/-- The 24 round constants of Keccak-f[1600], written in decimal. -/
def KECCAK_RC : List Nat :=
  [1,
   32898,
   9223372036854808714,
   9223372039002292224,
   32907,
   2147483649,
   9223372039002292353,
   9223372036854808585,
   138,
   136,
   2147516425,
   2147483658,
   2147516555,
   9223372036854775947,
   9223372036854808713,
   9223372036854808579,
   9223372036854808578,
   9223372036854775936,
   32778,
   9223372039002259466,
   9223372039002292353,
   9223372036854808704,
   2147483649,
   9223372039002292232]

/-- The full Keccak-f[1600] permutation. -/
def keccakF (st : List Nat) : List Nat :=
  KECCAK_RC.foldl (fun s rc => keccakIota rc (keccakChi (keccakRhoPi (keccakTheta s)))) st

/-- Little-endian value of a list of bytes. -/
def leLane (bs : List Nat) : Nat :=
  bs.foldr (fun b acc => acc * 256 + b) 0

/-- Little-endian bytes of a lane. -/
def natToBytesLE (n x : Nat) : List Nat :=
  (List.range n).map (fun i => x / 256 ^ i % 256)

/-- Absorb one rate-sized block: xor it into the low lanes, permute. -/
def absorbBlock (rate : Nat) (st block : List Nat) : List Nat :=
  keccakF ((List.range 25).map (fun i =>
    if i < rate / 8 then st.getD i 0 ^^^ leLane ((block.drop (8 * i)).take 8)
    else st.getD i 0))

/-- Multi-rate padding pad10*1 with the given domain byte (1 for legacy
Keccak, 6 for SHA-3). -/
def keccakPad (rate padByte : Nat) (msg : List Nat) : List Nat :=
  let r := rate - msg.length % rate
  if r = 1 then msg ++ [padByte ||| 0x80]
  else msg ++ [padByte] ++ List.replicate (r - 2) 0 ++ [0x80]

/-- Absorb a padded message block by block, starting from the zero state. -/
def absorbAll (rate : Nat) (padded : List Nat) : List Nat :=
  (List.range (padded.length / rate)).foldl
    (fun st k => absorbBlock rate st ((padded.drop (k * rate)).take rate))
    (List.replicate 25 0)

/-- Squeeze the first `outLen` bytes of the state (one block suffices for
both digests used here). -/
def squeeze (outLen : Nat) (st : List Nat) : List Nat :=
  (((List.range 25).map (fun i => natToBytesLE 8 (st.getD i 0))).flatten).take outLen

/-- The legacy Keccak-256 digest (`crypt::Keccak256`): rate 136, domain
byte 1, 32 output bytes. -/
def keccak256 (msg : List Nat) : List Nat :=
  squeeze 32 (absorbAll 136 (keccakPad 136 1 msg))

/-- The SHA3-512 digest (`crate::crypt::Hasher`): rate 72, domain byte 6,
64 output bytes. -/
def sha3_512 (msg : List Nat) : List Nat :=
  squeeze 64 (absorbAll 72 (keccakPad 72 6 msg))

/-! ## Address derivation (src/models/public_key.rs) -/

/-- Embedding of `From<PublicKey> for ethaddr::Address`: Keccak-256 of the
serialized key without its first byte, then `bytes32[12..]`. -/
def PublicKey.toAddress (p : PublicKey) : List Nat :=
  (keccak256 (p.key.serialize.drop 1)).drop 12

/-- Modelled from the spec, for comparison with `PublicKey.toAddress`
(section 4.2): serialize to the 65-byte uncompressed form, drop the leading
format byte, hash the remaining 64 bytes with Keccak-256, and take the last
20 bytes of the digest as the ledger address. -/
def derive_address_spec (p : PublicKey) : List Nat :=
  (keccak256 (p.key.serialize.drop 1)).drop
    ((keccak256 (p.key.serialize.drop 1)).length - 20)

/-! ## `Base64` (src/models/base64.rs) -/

/-- Embedding of the `Base64` wrapper around the decoded bytes. -/
structure Base64 where
  data : List Nat
deriving DecidableEq

/-- The standard base64 alphabet, as bytes. -/
def B64_ALPHABET : List Nat :=
  strBytes "ABCDEFGHIJKLMNOPQRSTUVWXYZabcdefghijklmnopqrstuvwxyz0123456789+/"

/-- Index of a byte in the standard base64 alphabet. -/
def b64Val (b : Nat) : Option Nat :=
  B64_ALPHABET.findIdx? (fun c => c = b)

/-- Embedding of `base64::engine::general_purpose::STANDARD.decode`: the
input must be canonically padded to 4-byte groups (byte 61 is the padding
character =), trailing bits beyond the encoded length must be zero, and
whitespace is not tolerated. -/
def base64Decode : List Nat → Option (List Nat)
  | [] => some []
  | a :: b :: c :: d :: rest =>
    match b64Val a, b64Val b with
    | some va, some vb =>
      if c = 61 ∧ d = 61 then
        if rest = [] ∧ vb % 16 = 0 then some [va * 4 + vb / 16] else none
      else if d = 61 then
        match b64Val c with
        | some vc =>
          if rest = [] ∧ vc % 4 = 0 then
            some [va * 4 + vb / 16, vb % 16 * 16 + vc / 4]
          else none
        | none => none
      else
        match b64Val c, b64Val d, base64Decode rest with
        | some vc, some vd, some tail =>
          some ((va * 4 + vb / 16) :: (vb % 16 * 16 + vc / 4) :: (vc % 4 * 64 + vd) :: tail)
        | _, _, _ => none
    | _, _ => none
  | _ => none

/-- Embedding of `FromStr` for `Base64`: decode with the standard engine.
The error type in the source is the unit type `()`. -/
def Base64.from_str (s : List Nat) : Except Unit Base64 :=
  match base64Decode s with
  | some v => .ok ⟨v⟩
  | none => .error ()

/-- Embedding of the `serde::Deserialize` impl for `Base64`: delegates to
`FromStr` and maps any error to the custom serde message. -/
def Base64.deserialize (s : List Nat) : Except String Base64 :=
  (Base64.from_str s).mapError (fun _ => "Invalid Base64")

/-! ## `RevisionWitness` and the Merkle replay (src/models/witness.rs) -/

/-- Embedding of `MerkleNode`. -/
structure MerkleNode where
  left_leaf : Hash
  right_leaf : Hash
  successor : Hash
deriving DecidableEq

/-- Embedding of `RevisionWitness`. -/
structure RevisionWitness where
  domain_snapshot_genesis_hash : Hash
  merkle_root : Hash
  witness_network : List Nat
  witness_event_transaction_hash : TxHash
  witness_event_verification_hash : Hash
  witness_hash : Hash
  structured_merkle_proof : List MerkleNode

/-- Modelled from the spec: the repository declares `RevisionWitness` and
`MerkleNode` in src/models/witness.rs but the Merkle replay verifier itself
is not under src/; this follows section 4.4 of the spec.  Walk the proof
nodes in order carrying a hash (the leaf hash at the first node); at each
node one of the two leaves must equal the carried hash, the stored
successor must equal the SHA3-512 digest of left_leaf concatenated with
right_leaf, and the successor is carried forward; after the last node the
carried hash must equal the claimed root. -/
def merkleReplay (carry : Hash) (nodes : List MerkleNode) (root : Hash) : Bool :=
  match nodes with
  | [] => carry == root
  | n :: rest =>
    (n.left_leaf == carry || n.right_leaf == carry)
    && n.successor == Hash.mk (sha3_512 (n.left_leaf.bytes ++ n.right_leaf.bytes))
    && merkleReplay n.successor rest root

/-- Modelled from the spec: verification of a `RevisionWitness` replays its
structured proof from the claimed leaf hash against its `merkle_root`. -/
def RevisionWitness.verify (w : RevisionWitness) (leaf : Hash) : Bool :=
  merkleReplay leaf w.structured_merkle_proof w.merkle_root

/-- Declarative reading of section 4.4: a valid replay chain from `carry`
through `nodes` to `root`. -/
inductive MerkleChain : Hash → List MerkleNode → Hash → Prop
  | nil (h : Hash) : MerkleChain h [] h
  | cons (carry : Hash) (n : MerkleNode) (rest : List MerkleNode) (root : Hash)
      (hmatch : n.left_leaf = carry ∨ n.right_leaf = carry)
      (hsucc : n.successor = Hash.mk (sha3_512 (n.left_leaf.bytes ++ n.right_leaf.bytes)))
      (htail : MerkleChain n.successor rest root) :
      MerkleChain carry (n :: rest) root

/-! ## Helper lemmas -/

lemma map_fix_of_forall {f : Nat → Nat} :
    ∀ l : List Nat, (∀ x ∈ l, f x = x) → l.map f = l := by
  intro l h
  induction l with
  | nil => rfl
  | cons a l ih =>
    rw [List.map_cons, h a (List.mem_cons_self a l),
      ih (fun x hx => h x (List.mem_cons_of_mem _ hx))]

lemma hexDigitLower_mem (n : Nat) : hexDigitLower n ∈ HEX_CHARS_LOWER := by
  unfold hexDigitLower
  by_cases h : n < HEX_CHARS_LOWER.length
  · rw [List.getD_eq_getElem _ _ h]
    exact List.getElem_mem h
  · rw [List.getD_eq_default _ _ (Nat.le_of_not_lt h)]
    decide

lemma hexDigitLower_ascii (n : Nat) : hexDigitLower n < 128 := by
  have hmem := hexDigitLower_mem n
  have : ∀ b ∈ HEX_CHARS_LOWER, b < 128 := by decide
  exact this _ hmem

lemma hexDigitLower_not_upper (n : Nat) : ¬ (65 ≤ hexDigitLower n ∧ hexDigitLower n ≤ 90) := by
  have hmem := hexDigitLower_mem n
  have : ∀ b ∈ HEX_CHARS_LOWER, ¬ (65 ≤ b ∧ b ≤ 90) := by decide
  exact this _ hmem

lemma hexEncode_nil : hexEncode [] = [] := rfl

lemma hexEncode_cons (b : Nat) (bs : List Nat) :
    hexEncode (b :: bs) = hexDigitLower (b / 16) :: hexDigitLower (b % 16) :: hexEncode bs := by
  simp [hexEncode, hexEncodeByte]

lemma hexEncode_mem {c : Nat} {bs : List Nat} (h : c ∈ hexEncode bs) :
    c ∈ HEX_CHARS_LOWER := by
  induction bs with
  | nil => simp [hexEncode_nil] at h
  | cons b bs ih =>
    rw [hexEncode_cons] at h
    rcases List.mem_cons.mp h with h1 | h2
    · rw [h1]; exact hexDigitLower_mem _
    · rcases List.mem_cons.mp h2 with h3 | h4
      · rw [h3]; exact hexDigitLower_mem _
      · exact ih h4

lemma hexEncode_length (bs : List Nat) : (hexEncode bs).length = 2 * bs.length := by
  induction bs with
  | nil => rfl
  | cons b bs ih => rw [hexEncode_cons]; simp [ih]; omega

lemma hexEncode_ascii (bs : List Nat) : isAsciiStr (hexEncode bs) = true := by
  unfold isAsciiStr
  rw [List.all_eq_true]
  intro c hc
  have hmem := hexEncode_mem hc
  have hlt : ∀ b ∈ HEX_CHARS_LOWER, b < 128 := by decide
  exact decide_eq_true (hlt _ hmem)

lemma hexEncode_lowercase_fix (bs : List Nat) :
    toAsciiLowercase (hexEncode bs) = hexEncode bs := by
  unfold toAsciiLowercase
  apply map_fix_of_forall
  intro c hc
  have hmem := hexEncode_mem hc
  have hnu : ∀ b ∈ HEX_CHARS_LOWER, ¬ (65 ≤ b ∧ b ≤ 90) := by decide
  exact if_neg (hnu _ hmem)

lemma hexVal_hexDigitLower {d : Nat} (h : d < 16) :
    hexVal (hexDigitLower d) = some d := by
  have : ∀ d, d < 16 → hexVal (hexDigitLower d) = some d := by decide
  exact this d h

lemma hexDecodePairs_hexEncode {bs : List Nat} (h : ∀ b ∈ bs, b < 256) :
    hexDecodePairs (hexEncode bs) = some bs := by
  induction bs with
  | nil => rfl
  | cons b bs ih =>
    have hb : b < 256 := h b (List.mem_cons_self b bs)
    have hdiv : b / 16 < 16 := by omega
    have hmod : b % 16 < 16 := Nat.mod_lt _ (by norm_num)
    have hstep :
        hexDecodePairs (hexDigitLower (b / 16) :: hexDigitLower (b % 16) :: hexEncode bs)
          = some ((16 * (b / 16) + b % 16) :: bs) := by
      unfold hexDecodePairs
      rw [hexVal_hexDigitLower hdiv, hexVal_hexDigitLower hmod,
        ih (fun x hx => h x (List.mem_cons_of_mem _ hx))]
      rfl
    have hb16 : 16 * (b / 16) + b % 16 = b := by omega
    rw [hexEncode_cons, hstep, hb16]

lemma hexDecodeToSlice_hexEncode {SIZE : Nat} {bs : List Nat} (hlen : bs.length = SIZE)
    (hbytes : ∀ b ∈ bs, b < 256) :
    hexDecodeToSlice SIZE (hexEncode bs) = some bs := by
  unfold hexDecodeToSlice
  rw [if_pos (by rw [hexEncode_length, hlen]; omega)]
  exact hexDecodePairs_hexEncode hbytes

lemma from_hex_hexEncode {SIZE : Nat} {bs : List Nat} (hlen : bs.length = SIZE)
    (hbytes : ∀ b ∈ bs, b < 256) :
    from_hex SIZE (hexEncode bs) = some bs := by
  unfold from_hex
  have hlen2 : (hexEncode bs).length = SIZE * 2 := by
    rw [hexEncode_length, hlen]; omega
  have hguard : ¬ (USIZE_MAX - (hexEncode bs).length = SIZE * 2
      ∨ ¬ isAsciiStr (hexEncode bs) = true) := by
    push_neg
    constructor
    · rw [hlen2]
      unfold USIZE_MAX
      omega
    · exact hexEncode_ascii bs
  rw [if_neg hguard]
  exact hexDecodeToSlice_hexEncode hlen hbytes

lemma from_hex_none_of_wrong_length {SIZE : Nat} {s : List Nat}
    (h : s.length ≠ SIZE * 2) : from_hex SIZE s = none := by
  unfold from_hex
  by_cases hg : USIZE_MAX - s.length = SIZE * 2 ∨ ¬ isAsciiStr s = true
  · rw [if_pos hg]
  · rw [if_neg hg]
    unfold hexDecodeToSlice
    rw [if_neg h]

lemma natToBytesBE_length : ∀ n x, (natToBytesBE n x).length = n := by
  intro n
  induction n with
  | zero => intro x; rfl
  | succ n ih =>
    intro x
    unfold natToBytesBE
    simp [ih]

lemma natToBytesBE_lt : ∀ n x, ∀ b ∈ natToBytesBE n x, b < 256 := by
  intro n
  induction n with
  | zero => intro x b hb; simp [natToBytesBE] at hb
  | succ n ih =>
    intro x b hb
    unfold natToBytesBE at hb
    rcases List.mem_append.mp hb with h | h
    · exact ih _ b h
    · rw [List.mem_singleton.mp h]
      exact Nat.mod_lt _ (by norm_num)

lemma natFromBytesBE_append_one (l : List Nat) (b : Nat) :
    natFromBytesBE (l ++ [b]) = natFromBytesBE l * 256 + b := by
  unfold natFromBytesBE
  rw [List.foldl_append]
  rfl

lemma natFromBytesBE_natToBytesBE : ∀ n x, x < 256 ^ n →
    natFromBytesBE (natToBytesBE n x) = x := by
  intro n
  induction n with
  | zero =>
    intro x hx
    interval_cases x
    rfl
  | succ n ih =>
    intro x hx
    unfold natToBytesBE
    rw [natFromBytesBE_append_one]
    have hdiv : x / 256 < 256 ^ n := by
      rw [Nat.div_lt_iff_lt_mul (by norm_num : (0 : Nat) < 256)]
      calc x < 256 ^ (n + 1) := hx
        _ = 256 ^ n * 256 := by rw [pow_succ]
    rw [ih _ hdiv]
    omega

lemma SECP_N_lt_pow : SECP_N < 256 ^ 32 := by
  norm_num [SECP_N]

lemma SECP_P_lt_pow : SECP_P < 256 ^ 32 := by
  norm_num [SECP_P]

lemma SecpSignature.parse_standard_serialize {sig : SecpSignature} (h : sig.Valid) :
    SecpSignature.parse_standard sig.serialize = .ok sig := by
  obtain ⟨hr, hs⟩ := h
  unfold SecpSignature.parse_standard SecpSignature.serialize
  have hlenr : (natToBytesBE 32 sig.r).length = 32 := natToBytesBE_length _ _
  have hlen : (natToBytesBE 32 sig.r ++ natToBytesBE 32 sig.s).length = 64 := by
    simp [natToBytesBE_length]
  rw [if_pos hlen, List.take_left' hlenr, List.drop_left' hlenr,
    natFromBytesBE_natToBytesBE _ _ (lt_trans hr SECP_N_lt_pow),
    natFromBytesBE_natToBytesBE _ _ (lt_trans hs SECP_N_lt_pow),
    if_pos ⟨hr, hs⟩]

lemma SecpPublicKey.parse_serialize {k : SecpPublicKey} (h : k.Valid) :
    SecpPublicKey.parse k.serialize = .ok k := by
  obtain ⟨hx, hy, hcurve⟩ := h
  obtain ⟨x, y⟩ := k
  simp only at hx hy hcurve
  have hxv := natFromBytesBE_natToBytesBE 32 x (lt_trans hx SECP_P_lt_pow)
  have hyv := natFromBytesBE_natToBytesBE 32 y (lt_trans hy SECP_P_lt_pow)
  have hlA : (natToBytesBE 32 x).length = 32 := natToBytesBE_length _ _
  have hlB : (natToBytesBE 32 y).length = 32 := natToBytesBE_length _ _
  unfold SecpPublicKey.serialize SecpPublicKey.parse
  set A := natToBytesBE 32 x with hA
  set B := natToBytesBE 32 y with hB
  have e1 : (((4 : Nat) :: (A ++ B)).drop 1).take 32 = A := by
    rw [List.drop_succ_cons, List.drop_zero, List.take_left' hlA]
  have e2 : ((4 : Nat) :: (A ++ B)).drop 33 = B := by
    have hsplit : (4 : Nat) :: (A ++ B) = (4 :: A) ++ B := by simp
    rw [hsplit, List.drop_left' (by simp [hlA])]
  have e4 : ((4 : Nat) :: (A ++ B)).length = 65 := by simp [hlA, hlB]
  simp only [e1, e2, e4, hxv, hyv, List.getD_cons_zero]
  rw [if_pos (by norm_num)]
  rw [if_pos ⟨hx, hy, hcurve, by omega, by omega⟩]

lemma Signature.tryFrom65_to65 {v : Signature} (hsig : v.signature.Valid)
    (hrid : v.recovery_id.Valid) :
    Signature.tryFrom65 v.to65 = .ok v := by
  unfold Signature.tryFrom65 Signature.to65
  have hlen : v.signature.serialize.length = 64 := by
    unfold SecpSignature.serialize
    simp [natToBytesBE_length]
  rw [List.take_left' hlen]
  have hget : (v.signature.serialize ++ [RecoveryId.serialize v.recovery_id + 27]).getD 64 0
      = RecoveryId.serialize v.recovery_id + 27 := by
    rw [List.getD_eq_getElem _ _ (by simp [hlen] : 64 < _)]
    rw [List.getElem_append_right (by omega)]
    simp [hlen]
  rw [hget, SecpSignature.parse_standard_serialize hsig]
  unfold RecoveryId.parse_rpc RecoveryId.parse RecoveryId.serialize
  have hb : v.recovery_id.b < 4 := hrid
  rw [if_pos ⟨by omega, by omega⟩, if_pos (by omega : v.recovery_id.b + 27 - 27 < 4)]
  have hsub : v.recovery_id.b + 27 - 27 = v.recovery_id.b := by omega
  rw [hsub]
  rfl

lemma toAsciiLowercase_0x_hexEncode (bs : List Nat) :
    toAsciiLowercase (48 :: 120 :: hexEncode bs) = 48 :: 120 :: hexEncode bs := by
  have h1 := hexEncode_lowercase_fix bs
  unfold toAsciiLowercase at h1 ⊢
  rw [List.map_cons, List.map_cons, h1]
  norm_num

lemma SecpPublicKey.serialize_length (k : SecpPublicKey) : k.serialize.length = 65 := by
  simp [SecpPublicKey.serialize, natToBytesBE_length]

lemma SecpPublicKey.serialize_bytes_lt (k : SecpPublicKey) :
    ∀ b ∈ k.serialize, b < 256 := by
  intro b hb
  unfold SecpPublicKey.serialize at hb
  rcases List.mem_cons.mp hb with h | h
  · omega
  · rcases List.mem_append.mp h with h | h
    · exact natToBytesBE_lt _ _ _ h
    · exact natToBytesBE_lt _ _ _ h

lemma Signature.to65_length (v : Signature) : v.to65.length = 65 := by
  simp [Signature.to65, SecpSignature.serialize, natToBytesBE_length]

lemma Signature.to65_bytes_lt {v : Signature} (hrid : v.recovery_id.Valid) :
    ∀ b ∈ v.to65, b < 256 := by
  intro b hb
  unfold Signature.to65 at hb
  rcases List.mem_append.mp hb with h | h
  · unfold SecpSignature.serialize at h
    rcases List.mem_append.mp h with h | h
    · exact natToBytesBE_lt _ _ _ h
    · exact natToBytesBE_lt _ _ _ h
  · rw [List.mem_singleton.mp h]
    unfold RecoveryId.serialize
    have : v.recovery_id.b < 4 := hrid
    omega

lemma TxHash.from_str_prefixed (l : List Nat) :
    TxHash.from_str (48 :: 120 :: l) =
      (if l.length ≠ 64 then .error .badLen
       else
        match hexDecodeToSlice 32 l with
        | some bs => .ok ⟨bs⟩
        | none => .error .decodeFail) := rfl

/-! ## The claims -/

/-- C1: Round-trip law: for every valid value x of type Hash, TxHash,
PublicKey, or Signature, parsing the canonical string produced by
formatting x (Display / to_stackstr) succeeds and returns a value equal
to x. -/
theorem c1_round_trip :
    (∀ h : Hash, h.Valid → Hash.from_str h.to_stackstr = .ok h)
    ∧ (∀ t : TxHash, t.Valid → TxHash.from_str t.to_stackstr = .ok t)
    ∧ (∀ p : PublicKey, p.key.Valid → PublicKey.from_str p.to_stackstr = .ok p)
    ∧ (∀ v : Signature, v.signature.Valid → v.recovery_id.Valid →
        Signature.from_str v.to_stackstr = .ok v) := by
  refine ⟨?_, ?_, ?_, ?_⟩
  · intro h hv
    obtain ⟨hlen, hbytes⟩ := hv
    unfold Hash.from_str Hash.to_stackstr
    rw [from_hex_hexEncode hlen hbytes]
  · intro t hv
    obtain ⟨hlen, hbytes⟩ := hv
    unfold TxHash.to_stackstr
    rw [TxHash.from_str_prefixed]
    rw [if_neg (by rw [hexEncode_length, hlen]; omega)]
    rw [hexDecodeToSlice_hexEncode hlen hbytes]
  · intro p hv
    have e1 : from_hex 65 (hexEncode p.key.serialize) = some p.key.serialize :=
      from_hex_hexEncode (SecpPublicKey.serialize_length _)
        (SecpPublicKey.serialize_bytes_lt _)
    have e2 : SecpPublicKey.parse p.key.serialize = .ok p.key :=
      SecpPublicKey.parse_serialize hv
    unfold PublicKey.to_stackstr
    simp [PublicKey.from_str, toAsciiLowercase_0x_hexEncode, strip0x, e1, e2,
      Except.map, Except.mapError]
  · intro v hsig hrid
    have e1 : from_hex 65 (hexEncode v.to65) = some v.to65 :=
      from_hex_hexEncode (Signature.to65_length _) (Signature.to65_bytes_lt hrid)
    have e2 : Signature.tryFrom65 v.to65 = .ok v := Signature.tryFrom65_to65 hsig hrid
    unfold Signature.to_stackstr
    simp [Signature.from_str, toAsciiLowercase_0x_hexEncode, strip0x, e1, e2,
      Except.mapError]

/-- Witness for C1: the four round trips evaluated at a concrete all-zero
hash, an all-zero transaction hash, the secp256k1 generator point, and the
signature (r, s) = (1, 1) with recovery id 0. -/
theorem c1_round_trip_witness :
    Hash.from_str (Hash.to_stackstr ⟨List.replicate 64 0⟩) = .ok ⟨List.replicate 64 0⟩
    ∧ TxHash.from_str (TxHash.to_stackstr ⟨List.replicate 32 0⟩) = .ok ⟨List.replicate 32 0⟩
    ∧ PublicKey.from_str (PublicKey.to_stackstr
        ⟨⟨55066263022277343669578718895168534326250603453777594175500187360389116729240,
          32670510020758816978083085130507043184471273380659243275938904335757337482424⟩⟩)
      = .ok ⟨⟨55066263022277343669578718895168534326250603453777594175500187360389116729240,
          32670510020758816978083085130507043184471273380659243275938904335757337482424⟩⟩
    ∧ Signature.from_str (Signature.to_stackstr ⟨⟨0⟩, ⟨1, 1⟩⟩) = .ok ⟨⟨0⟩, ⟨1, 1⟩⟩ :=
  ⟨c1_round_trip.1 _ (by decide),
   c1_round_trip.2.1 _ (by decide),
   c1_round_trip.2.2.1 _ (by decide),
   c1_round_trip.2.2.2 _ (by decide) (by decide)⟩

set_option maxRecDepth 10000 in
/-- C2 (code bug): the claim says parsing rejects any input containing an
uppercase letter for every identifier kind, and the repository's own
test_read in tx_hash.rs expects exactly that for this mixed-case input;
but `hex::decode_to_slice` accepts the digits A-F, `TxHash::from_str` and
`Hash::from_str` perform no case check, and both parsers accept uppercase
input of the right length.  The inputs are the mixed-case TxHash string
from the repository's own test and the uppercased form of the Hash test
digest. -/
theorem c2_uppercase_accepted :
    (TxHash.from_str (strBytes
      "0x17cb36e3abfe5cd2894f7b324102C3864d202Bc7b85e4f3e5ec78ca2c3db79d7")).isOk = true
    ∧ (Hash.from_str (strBytes
      "D9E09F8529FED3B909876F34F21C7148D73DE01D82F8AEE43C52D9EE2601999DDCBF4593A19BAAC497D9D83BB98C94C2508B8157EFAFCD6484CBCA7C4953AF5F")).isOk
      = true := by
  constructor
  · rfl
  · rfl

set_option maxRecDepth 10000 in
/-- C3 (code bug): the claim says parsing a TxHash fails for every input
lacking the 0x prefix, and the repository's own test_read in tx_hash.rs
expects exactly that for this input; but `TxHash::from_str` prepends the
missing prefix and accepts it.  The input is the prefix-less TxHash string
from the repository's own test. -/
theorem c3_unprefixed_txhash_accepted :
    (TxHash.from_str (strBytes
      "17cb36e3abfe5cd2894f7b324102c3864d202bc7b85e4f3e5ec78ca2c3db79d7")).isOk = true := by
  rfl

lemma merkleReplay_iff (root : Hash) :
    ∀ (nodes : List MerkleNode) (carry : Hash),
      merkleReplay carry nodes root = true ↔ MerkleChain carry nodes root := by
  intro nodes
  induction nodes with
  | nil =>
    intro carry
    unfold merkleReplay
    rw [beq_iff_eq]
    constructor
    · intro h
      rw [h]
      exact MerkleChain.nil root
    · intro h
      cases h
      rfl
  | cons n rest ih =>
    intro carry
    unfold merkleReplay
    rw [Bool.and_eq_true, Bool.and_eq_true, Bool.or_eq_true, beq_iff_eq, beq_iff_eq,
      beq_iff_eq]
    constructor
    · rintro ⟨⟨hmatch, hsucc⟩, htail⟩
      exact MerkleChain.cons carry n rest root hmatch hsucc ((ih _).mp htail)
    · rintro h
      cases h with
      | cons _ _ _ _ hmatch hsucc htail =>
        exact ⟨⟨hmatch, hsucc⟩, (ih _).mpr htail⟩

/-- C4 (modelled from the spec, the verifier itself is not under src/):
verification of a RevisionWitness walks the structured_merkle_proof nodes
in order, checks at each node that left_leaf or right_leaf equals the
carried hash (the leaf hash at the first node), checks that the successor
equals the SHA3-512 digest of left_leaf concatenated with right_leaf,
carries the successor forward, and succeeds if and only if the final
carried hash equals merkle_root; any mismatch at any step is a failure. -/
theorem c4_merkle_replay (w : RevisionWitness) (leaf : Hash) :
    RevisionWitness.verify w leaf = true
      ↔ MerkleChain leaf w.structured_merkle_proof w.merkle_root := by
  unfold RevisionWitness.verify
  exact merkleReplay_iff w.merkle_root w.structured_merkle_proof leaf

lemma SecpSignature.serialize_len64 (sig : SecpSignature) :
    sig.serialize.length = 64 := by
  simp [SecpSignature.serialize, natToBytesBE_length]

lemma getD_append_64 (l : List Nat) (b : Nat) (h : l.length = 64) :
    (l ++ [b]).getD 64 0 = b := by
  rw [List.getD_eq_getElem _ _ (by simp [h] : 64 < (l ++ [b]).length)]
  rw [List.getElem_append_right (by omega)]
  simp [h]

/-- C5: converting a Signature with recovery id 0 to its 65-byte form
yields trailing byte 27; converting a 65-byte array whose trailing byte is
27 back yields recovery id 0; for every trailing byte outside
{27, 28, 29, 30} the conversion to Signature fails. -/
theorem c5_recovery_offset :
    (∀ v : Signature, v.recovery_id.b = 0 → v.to65.getD 64 0 = 27)
    ∧ (∀ (bs : List Nat) (v : Signature), bs.length = 64 →
        Signature.tryFrom65 (bs ++ [27]) = .ok v → v.recovery_id = ⟨0⟩)
    ∧ (∀ (bs : List Nat) (t : Nat), bs.length = 64 → ¬ (27 ≤ t ∧ t ≤ 30) →
        (Signature.tryFrom65 (bs ++ [t])).isOk = false) := by
  refine ⟨?_, ?_, ?_⟩
  · intro v h0
    unfold Signature.to65
    rw [getD_append_64 _ _ (SecpSignature.serialize_len64 v.signature)]
    unfold RecoveryId.serialize
    rw [h0]
  · intro bs v hlen hok
    unfold Signature.tryFrom65 at hok
    rw [List.take_left' hlen, getD_append_64 bs 27 hlen] at hok
    cases hps : SecpSignature.parse_standard bs with
    | error e =>
      rw [hps] at hok
      exact absurd (show (Except.error e : Except SecpError Signature) = Except.ok v
        from hok) (by simp)
    | ok sig =>
      rw [hps] at hok
      have hok2 : (Except.ok (⟨⟨0⟩, sig⟩ : Signature) : Except SecpError Signature)
          = Except.ok v := hok
      injection hok2 with h3
      rw [← h3]
  · intro bs t hlen ht
    unfold Signature.tryFrom65
    rw [List.take_left' hlen, getD_append_64 bs t hlen]
    cases hps : SecpSignature.parse_standard bs with
    | error e => rfl
    | ok sig =>
      have hrpc : RecoveryId.parse_rpc t = .error .invalidRecoveryId := by
        unfold RecoveryId.parse_rpc
        rw [if_neg ht]
      simp only [hrpc]
      rfl

/-- Witness for C5: the three parts evaluated at the signature
(r, s) = (1, 1) with recovery id 0, at the all-zero 64-byte array with
trailing byte 27, and at the all-zero 64-byte array with trailing byte 0. -/
theorem c5_recovery_offset_witness :
    (Signature.to65 ⟨⟨0⟩, ⟨1, 1⟩⟩).getD 64 0 = 27
    ∧ (⟨⟨0⟩, ⟨0, 0⟩⟩ : Signature).recovery_id = ⟨0⟩
    ∧ (Signature.tryFrom65 (List.replicate 64 0 ++ [0])).isOk = false :=
  ⟨c5_recovery_offset.1 _ rfl,
   c5_recovery_offset.2.1 (List.replicate 64 0) _ (by decide) (by rfl),
   c5_recovery_offset.2.2 (List.replicate 64 0) 0 (by decide) (by decide)⟩

lemma natToBytesLE_length (n x : Nat) : (natToBytesLE n x).length = n := by
  simp [natToBytesLE]

lemma squeeze_length {outLen : Nat} (st : List Nat) (h : outLen ≤ 200) :
    (squeeze outLen st).length = outLen := by
  unfold squeeze
  rw [List.length_take]
  have hf : (((List.range 25).map (fun i => natToBytesLE 8 (st.getD i 0))).flatten).length
      = 200 := by
    rw [List.length_flatten, List.map_map]
    have hmap : ((List.range 25).map (List.length ∘ fun i => natToBytesLE 8 (st.getD i 0)))
        = (List.range 25).map (fun _ => 8) := by
      apply List.map_congr_left
      intro i _
      simp [natToBytesLE_length]
    rw [hmap]
    rfl
  rw [hf]
  omega

lemma keccak256_length (msg : List Nat) : (keccak256 msg).length = 32 :=
  squeeze_length _ (by norm_num)

/-- C6: for every PublicKey, the derived ledger address equals the last 20
bytes of the Keccak-256 digest of bytes 1..65 of the uncompressed 65-byte
serialization (the leading format byte dropped); the derivation is a pure
function of the key, so equal keys yield identical 20-byte results. -/
theorem c6_address_derivation :
    (∀ p : PublicKey, p.toAddress = derive_address_spec p)
    ∧ (∀ p : PublicKey, p.toAddress.length = 20)
    ∧ (∀ p q : PublicKey, p = q → p.toAddress = q.toAddress) := by
  refine ⟨?_, ?_, ?_⟩
  · intro p
    unfold PublicKey.toAddress derive_address_spec
    rw [keccak256_length]
  · intro p
    unfold PublicKey.toAddress
    rw [List.length_drop, keccak256_length]
  · intro p q h
    rw [h]

/-- Witness for C6: the determinism part applied at the secp256k1 generator
point. -/
theorem c6_address_derivation_witness :
    (⟨⟨55066263022277343669578718895168534326250603453777594175500187360389116729240,
        32670510020758816978083085130507043184471273380659243275938904335757337482424⟩⟩
      : PublicKey).toAddress
    = (⟨⟨55066263022277343669578718895168534326250603453777594175500187360389116729240,
        32670510020758816978083085130507043184471273380659243275938904335757337482424⟩⟩
      : PublicKey).toAddress :=
  c6_address_derivation.2.2 _ _ rfl

lemma strip0x_eq_some {s t : List Nat} (h : strip0x s = some t) :
    s = 48 :: 120 :: t := by
  unfold strip0x at h
  split at h
  · injection h with h2
    rw [h2]
  · exact absurd h (by simp)

lemma startsWith0x_decomp {s : List Nat} (h : startsWith0x s = true) :
    ∃ rest, s = 48 :: 120 :: rest := by
  unfold startsWith0x at h
  split at h
  · exact ⟨_, rfl⟩
  · exact absurd h (by simp)

/-- C7: for every SIZE and every input whose length is not exactly
SIZE * 2 (too short or too long), from_hex returns None; consequently each
identifier parser rejects hex payloads of incorrect length (128 hex
characters for Hash, 64 for the TxHash payload, 130 for PublicKey and
Signature). -/
theorem c7_length_rejection :
    (∀ (SIZE : Nat) (s : List Nat), s.length ≠ SIZE * 2 → from_hex SIZE s = none)
    ∧ (∀ s : List Nat, s.length ≠ 128 → (Hash.from_str s).isOk = false)
    ∧ (∀ s : List Nat, s.length ≠ 64 → s.length ≠ 66 → (TxHash.from_str s).isOk = false)
    ∧ (∀ s : List Nat, s.length ≠ 132 → (PublicKey.from_str s).isOk = false)
    ∧ (∀ s : List Nat, s.length ≠ 132 → (Signature.from_str s).isOk = false) := by
  refine ⟨?_, ?_, ?_, ?_, ?_⟩
  · intro SIZE s h
    exact from_hex_none_of_wrong_length h
  · intro s h
    have hn : from_hex 64 s = none := from_hex_none_of_wrong_length (by omega)
    simp [Hash.from_str, hn, Except.isOk]
    rfl
  · intro s h64 h66
    cases hsw : startsWith0x s with
    | true =>
      obtain ⟨rest, hs⟩ := startsWith0x_decomp hsw
      subst hs
      rw [TxHash.from_str_prefixed]
      rw [if_pos (by simp at h66 ⊢; omega)]
      rfl
    | false =>
      simp only [TxHash.from_str, hsw, Bool.false_eq_true, if_false, strip0x]
      rw [if_pos (by omega)]
      rfl
  · intro s h132
    by_cases hlow : toAsciiLowercase s = s
    · cases hstrip : strip0x s with
      | none =>
        simp [PublicKey.from_str, hlow, hstrip, Except.isOk]
        rfl
      | some t =>
        have hs := strip0x_eq_some hstrip
        have hn : from_hex 65 t = none := by
          apply from_hex_none_of_wrong_length
          rw [hs] at h132
          simp at h132
          omega
        simp [PublicKey.from_str, hlow, hstrip, hn, Except.isOk]
        rfl
    · simp [PublicKey.from_str, hlow, Except.isOk]
      rfl
  · intro s h132
    by_cases hlow : toAsciiLowercase s = s
    · cases hstrip : strip0x s with
      | none =>
        simp [Signature.from_str, hlow, hstrip, Except.isOk]
        rfl
      | some t =>
        have hs := strip0x_eq_some hstrip
        have hn : from_hex 65 t = none := by
          apply from_hex_none_of_wrong_length
          rw [hs] at h132
          simp at h132
          omega
        simp [Signature.from_str, hlow, hstrip, hn, Except.isOk]
        rfl
    · simp [Signature.from_str, hlow, Except.isOk]
      rfl

set_option maxRecDepth 100000 in
/-- Witness for C7: from_hex with SIZE 64 on a 127-byte and a 129-byte
input, and the four parsers on wrong-length inputs built from the digit 0
(byte 48). -/
theorem c7_length_rejection_witness :
    from_hex 64 (List.replicate 127 48) = none
    ∧ from_hex 64 (List.replicate 129 48) = none
    ∧ (Hash.from_str (List.replicate 129 48)).isOk = false
    ∧ (TxHash.from_str (List.replicate 65 48)).isOk = false
    ∧ (PublicKey.from_str (List.replicate 131 48)).isOk = false
    ∧ (Signature.from_str (List.replicate 131 48)).isOk = false :=
  ⟨c7_length_rejection.1 64 _ (by decide),
   c7_length_rejection.1 64 _ (by decide),
   c7_length_rejection.2.1 _ (by decide),
   c7_length_rejection.2.2.1 _ (by decide) (by decide),
   c7_length_rejection.2.2.2.1 _ (by decide),
   c7_length_rejection.2.2.2.2 _ (by decide)⟩

set_option maxRecDepth 10000 in
/-- C8 counterexample: the claim says every parsing failure carries a
distinct error kind identifying the failed step, never a generic or
boolean-like failure; but the Hash parser returns the same unit error `()`
for an input of 128 z bytes (which fails the hex-decode step) and for the
three-byte input ab c (which fails the length step), so the two failure
causes are indistinguishable. -/
theorem c8_counterexample :
    Hash.from_str (List.replicate 128 122) = .error ()
    ∧ Hash.from_str (strBytes "abc") = .error ()
    ∧ Hash.from_str (List.replicate 128 122) = Hash.from_str (strBytes "abc") := by
  refine ⟨rfl, rfl, rfl⟩

/-- C8 as amended: Signature parsing distinguishes failures by ReadError
kind (NotAsciiLower for a case violation, NoPrefix for a missing prefix,
NotHex for a failed hex decode, DecryptFail wrapping the libsecp256k1
error), and TxHash by distinct message strings (the badLen constructor for
the LENGTH NOT EQUAL TO 64 message on a wrong-length payload, the distinct
decodeFail constructor for the UNABLE TO DECODE message on a failed hex
decode); but Hash, PublicKey, and Base64 parsing collapse every failure to
the single unit error. -/
theorem c8_error_kinds :
    (∀ s, toAsciiLowercase s ≠ s → Signature.from_str s = .error .notAsciiLower)
    ∧ (∀ s, toAsciiLowercase s = s → strip0x s = none →
        Signature.from_str s = .error .noPfx)
    ∧ (∀ s t, toAsciiLowercase s = s → strip0x s = some t → from_hex 65 t = none →
        Signature.from_str s = .error .notHex)
    ∧ (∀ s t bs65 e, toAsciiLowercase s = s → strip0x s = some t →
        from_hex 65 t = some bs65 → Signature.tryFrom65 bs65 = .error e →
        Signature.from_str s = .error (.decryptFail e))
    ∧ (∀ t : List Nat, t.length ≠ 64 →
        TxHash.from_str (48 :: 120 :: t) = .error .badLen)
    ∧ (∀ t : List Nat, t.length = 64 → hexDecodePairs t = none →
        TxHash.from_str (48 :: 120 :: t) = .error .decodeFail)
    ∧ TxHashErr.badLen ≠ TxHashErr.decodeFail
    ∧ (∀ s, (Hash.from_str s).isOk = false → Hash.from_str s = .error ())
    ∧ (∀ s, (PublicKey.from_str s).isOk = false → PublicKey.from_str s = .error ())
    ∧ (∀ s, (Base64.from_str s).isOk = false → Base64.from_str s = .error ()) := by
  refine ⟨?_, ?_, ?_, ?_, ?_, ?_, ?_, ?_, ?_, ?_⟩
  · intro s hup
    simp [Signature.from_str, hup]
  · intro s hlow hstrip
    simp [Signature.from_str, hlow, hstrip]
  · intro s t hlow hstrip hn
    simp [Signature.from_str, hlow, hstrip, hn]
  · intro s t bs65 e hlow hstrip hfh htf
    simp [Signature.from_str, hlow, hstrip, hfh, htf, Except.mapError]
  · intro t hne
    rw [TxHash.from_str_prefixed, if_pos hne]
  · intro t hlen hn
    rw [TxHash.from_str_prefixed, if_neg (by omega)]
    have hslice : hexDecodeToSlice 32 t = none := by
      unfold hexDecodeToSlice
      rw [if_pos (by omega), hn]
    rw [hslice]
  · intro hc
    cases hc
  · intro s hfail
    cases hv : Hash.from_str s with
    | ok x => exact absurd hfail (by simp [Except.isOk, Except.toBool, hv])
    | error e => rfl
  · intro s hfail
    cases hv : PublicKey.from_str s with
    | ok x => exact absurd hfail (by simp [Except.isOk, Except.toBool, hv])
    | error e => rfl
  · intro s hfail
    cases hv : Base64.from_str s with
    | ok x => exact absurd hfail (by simp [Except.isOk, Except.toBool, hv])
    | error e => rfl

set_option maxRecDepth 100000 in
/-- Witness for C8: one concrete input per failure kind: a mixed-case
signature string, a prefix-less one, a non-hex one, one whose 65 decoded
bytes carry an invalid recovery byte, a short and a non-hex TxHash
payload yielding the two distinct TxHash errors, and failing Hash,
PublicKey and Base64 inputs all yielding the unit error. -/
theorem c8_error_kinds_witness :
    Signature.from_str (strBytes "0xAB") = .error .notAsciiLower
    ∧ Signature.from_str (strBytes "ab") = .error .noPfx
    ∧ Signature.from_str (strBytes "0xzz") = .error .notHex
    ∧ Signature.from_str (48 :: 120 :: List.replicate 130 48)
      = .error (.decryptFail .invalidRecoveryId)
    ∧ TxHash.from_str (48 :: 120 :: List.replicate 63 48) = .error .badLen
    ∧ TxHash.from_str (48 :: 120 :: List.replicate 64 122) = .error .decodeFail
    ∧ Hash.from_str (strBytes "ab") = .error ()
    ∧ PublicKey.from_str (strBytes "ab") = .error ()
    ∧ Base64.from_str (strBytes " ") = .error () :=
  ⟨c8_error_kinds.1 _ (by decide),
   c8_error_kinds.2.1 _ (by decide) rfl,
   c8_error_kinds.2.2.1 _ (strBytes "zz") (by decide) rfl (by decide),
   c8_error_kinds.2.2.2.1 _ (List.replicate 130 48) (List.replicate 65 0) _
     (by decide) rfl rfl rfl,
   c8_error_kinds.2.2.2.2.1 _ (by decide),
   c8_error_kinds.2.2.2.2.2.1 _ (by decide) (by decide),
   c8_error_kinds.2.2.2.2.2.2.2.1 _ (by decide),
   c8_error_kinds.2.2.2.2.2.2.2.2.1 _ (by decide),
   c8_error_kinds.2.2.2.2.2.2.2.2.2 _ (by decide)⟩

/-- C9: for each of Hash, TxHash, PublicKey, Signature, and Base64,
deserializing a JSON string succeeds exactly when FromStr parsing of the
same string succeeds, with equal resulting values (serde deserialization
delegates to the same parser). -/
theorem c9_deserialize_parse_agreement :
    (∀ s x, Hash.deserialize s = .ok x ↔ Hash.from_str s = .ok x)
    ∧ (∀ s x, TxHash.deserialize s = .ok x ↔ TxHash.from_str s = .ok x)
    ∧ (∀ s x, PublicKey.deserialize s = .ok x ↔ PublicKey.from_str s = .ok x)
    ∧ (∀ s x, Signature.deserialize s = .ok x ↔ Signature.from_str s = .ok x)
    ∧ (∀ s x, Base64.deserialize s = .ok x ↔ Base64.from_str s = .ok x) := by
  refine ⟨?_, ?_, ?_, ?_, ?_⟩
  · intro s x
    cases hv : Hash.from_str s <;> simp [Hash.deserialize, hv, Except.mapError]
  · intro s x
    cases hv : TxHash.from_str s <;> simp [TxHash.deserialize, hv, Except.mapError]
  · intro s x
    cases hv : PublicKey.from_str s <;> simp [PublicKey.deserialize, hv, Except.mapError]
  · intro s x
    cases hv : Signature.from_str s <;> simp [Signature.deserialize, hv, Except.mapError]
  · intro s x
    cases hv : Base64.from_str s <;> simp [Base64.deserialize, hv, Except.mapError]

/-- C10: for every Hash value the three independently implemented encoders
(Display, to_stackstr, and the serde-serialized string content) produce
the identical string, which for a valid Hash is 128 lowercase hex bytes;
for every Signature value to_stackstr and the serde-serialized string
content produce the identical 0x-prefixed string of 130 lowercase hex
bytes. -/
theorem c10_formatter_agreement :
    (∀ h : Hash, Hash.display h = Hash.to_stackstr h
      ∧ Hash.serializeStr h = Hash.to_stackstr h)
    ∧ (∀ h : Hash, h.Valid → (Hash.to_stackstr h).length = 128
      ∧ ∀ c ∈ Hash.to_stackstr h, c ∈ HEX_CHARS_LOWER)
    ∧ (∀ v : Signature, Signature.serializeStr v = Signature.to_stackstr v)
    ∧ (∀ v : Signature, (Signature.to_stackstr v).length = 132
      ∧ (Signature.to_stackstr v).take 2 = [48, 120]
      ∧ ∀ c ∈ (Signature.to_stackstr v).drop 2, c ∈ HEX_CHARS_LOWER) := by
  refine ⟨fun h => ⟨rfl, rfl⟩, ?_, fun v => rfl, ?_⟩
  · intro h hv
    obtain ⟨hlen, _⟩ := hv
    constructor
    · unfold Hash.to_stackstr
      rw [hexEncode_length, hlen]
    · intro c hc
      exact hexEncode_mem hc
  · intro v
    have hdrop : (Signature.to_stackstr v).drop 2 = hexEncode v.to65 := by
      unfold Signature.to_stackstr
      simp only [List.drop_succ_cons, List.drop_zero]
    refine ⟨?_, rfl, ?_⟩
    · unfold Signature.to_stackstr
      rw [List.length_cons, List.length_cons, hexEncode_length, Signature.to65_length]
    · intro c hc
      rw [hdrop] at hc
      exact hexEncode_mem hc

/-- Witness for C10: the valid-Hash part applied at the all-zero digest. -/
theorem c10_formatter_agreement_witness :
    (Hash.to_stackstr ⟨List.replicate 64 0⟩).length = 128
    ∧ ∀ c ∈ Hash.to_stackstr ⟨List.replicate 64 0⟩, c ∈ HEX_CHARS_LOWER :=
  c10_formatter_agreement.2.1 _ (by decide)

end Aqua
